import Mathlib

/-!
# EmailMessageListModel

A shallow embedding of `src/email/src/emailmessagelistmodel.cpp`, the list-model adapter
that shows the messages of a mail store to the UI.

The adapter's own fields (`m_key`, `m_search`, `m_currentFolderId`, `m_selectedMsgIds`,
the two action pointers) and the two fields of its base class that it sets (the active key
and the sort key) form `State`.  Everything owned by the mail framework is an explicit
argument: the rows currently shown (`rows`, one message id per row) and the store
(`QMailStore`, the answers of the queries the adapter issues).  Requests sent to the
service actions and signals emitted are returned as a list of `Effect`s.
-/

namespace EmailMessageListModel

/-! ## Framework types -/

/-- A QString, as the sequence of its characters. -/
abbrev QString := List Char

/-- Message identifier: a wrapped quint64; the default-constructed id, 0, is the invalid one. -/
structure QMailMessageId where
  toULongLong : Nat
deriving DecidableEq, Repr

/-- Folder identifier: a wrapped quint64; the default-constructed id, 0, is the invalid one. -/
structure QMailFolderId where
  toULongLong : Nat
deriving DecidableEq, Repr

/-- Account identifier: a wrapped quint64; the default-constructed id, 0, is the invalid one. -/
structure QMailAccountId where
  toULongLong : Nat
deriving DecidableEq, Repr

/-- Validity test `QMailMessageId::isValid`. -/
def QMailMessageId.isValid (i : QMailMessageId) : Bool := i.toULongLong != 0

/-- Validity test `QMailFolderId::isValid`. -/
def QMailFolderId.isValid (i : QMailFolderId) : Bool := i.toULongLong != 0

/-- Validity test `QMailAccountId::isValid`. -/
def QMailAccountId.isValid (i : QMailAccountId) : Bool := i.toULongLong != 0

/-- The values a QVariant carries in this file. -/
inductive QVariant where
  | invalid
  | int (n : Int)
  | string (s : QString)
  | stringList (l : List QString)
  | messageId (i : QMailMessageId)
  | folderId (i : QMailFolderId)
  | accountId (i : QMailAccountId)
deriving DecidableEq, Repr

/-- The conversion `value<QMailMessageId>()`: the held id, or a default-constructed one. -/
def QVariant.toMessageId : QVariant → QMailMessageId
  | .messageId i => i
  | _ => ⟨0⟩

/-- The conversion `value<QMailFolderId>()`: the held id, or a default-constructed one. -/
def QVariant.toFolderId : QVariant → QMailFolderId
  | .folderId i => i
  | _ => ⟨0⟩

/-- The conversion `value<QMailAccountId>()`: the held id, or a default-constructed one. -/
def QVariant.toAccountId : QVariant → QMailAccountId
  | .accountId i => i
  | _ => ⟨0⟩

/-- Query predicates over messages, as the expressions the adapter builds.
`parentAccountId` and `parentFolderIdIn` take an id list (comparator Includes),
`parentFolderId` a single id (comparator Equal); `subject`, `recipients` and `sender`
are the Includes comparisons with a string; `and` and `or` are the operators `&` and `|`. -/
inductive QMailMessageKey where
  | nonMatchingKey
  | parentAccountId (ids : List QMailAccountId)
  | parentFolderId (id : QMailFolderId)
  | parentFolderIdIn (ids : List QMailFolderId)
  | subject (s : QString)
  | recipients (s : QString)
  | sender (s : QString)
  | and (a b : QMailMessageKey)
  | or (a b : QMailMessageKey)
deriving DecidableEq, Repr

/-- Sort direction `Qt::SortOrder`. -/
inductive SortOrder where
  | AscendingOrder
  | DescendingOrder
deriving DecidableEq, Repr

/-- Sort keys the adapter builds. -/
inductive QMailMessageSortKey where
  | timeStamp (o : SortOrder)
  | sender (o : SortOrder)
  | subject (o : SortOrder)
deriving DecidableEq, Repr

/-- Activity values `QMailServiceAction::Activity`. -/
inductive Activity where
  | Pending
  | InProgress
  | Successful
  | Failed
deriving DecidableEq, Repr

/-- What the adapter reads of a stored message: the status word of its meta data, its parent
account, the body of its plain-text container (when it has one) and the display names of the
parts at `findAttachmentLocations()`, in order. -/
structure QMailMessage where
  status : Nat
  parentAccountId : QMailAccountId
  plainText : Option QString
  attachments : List QString

/-- What the adapter asks of the mail store.
`enabledAccounts` is the answer of `queryAccounts(status(Enabled, Includes), name())`,
`queryFolders a` the answer of `queryFolders(QMailFolderKey::parentAccountId(a))`,
`displayName f` is `QMailFolder(f).displayName()`, `message i` the message loaded from id `i`.
`HasAttachments` and `Read` are the status-flag masks of `QMailMessageMetaData`. -/
structure QMailStore where
  enabledAccounts : List QMailAccountId
  queryFolders : QMailAccountId → List QMailFolderId
  displayName : QMailFolderId → QString
  message : QMailMessageId → QMailMessage
  HasAttachments : Nat
  Read : Nat

/-- Requests sent to the service actions and signals emitted by the adapter. A request names
the action it is sent to, by address. -/
inductive Effect where
  | dataChanged (topLeft bottomRight : Option Nat)
  | onlineMoveMessages (action : Nat) (ids : List QMailMessageId) (folder : QMailFolderId)
  | deleteMessages (action : Nat) (ids : List QMailMessageId)
  | exportUpdates (action : Nat) (account : QMailAccountId)
  | messageDownloadCompleted
deriving DecidableEq, Repr

/-- The roles of `data` modelled here: those of the adapter that read the selection, the status
word, the plain-text body and the id, and `MessageIdRole`, which the base class answers. -/
inductive Role where
  | MessageIdRole
  | MessageBodyTextRole
  | MessageAttachmentCountRole
  | MessageAttachmentsRole
  | MessageReadStatusRole
  | MessageQuotedBodyRole
  | MessageUuidRole
  | MessageSelectModeRole
deriving DecidableEq, Repr

/-! ## The adapter's state -/

/-- The fields of the adapter, and the key and sort key of its base class.
The two actions are identified by their addresses; `foldersAddedConnections` counts the
connections of the store's `foldersAdded` signal to the slot of the same name. -/
structure State where
  m_retrievalAction : Nat
  m_storageAction : Nat
  key : QMailMessageKey
  sortKey : QMailMessageSortKey
  m_key : QMailMessageKey
  m_search : QString
  m_currentFolderId : QMailFolderId
  m_selectedMsgIds : List QMailMessageId
  foldersAddedConnections : Nat
deriving DecidableEq, Repr

/-- The constructor: all messages of the enabled accounts, newest first, nothing selected.
The role names and `initMailServer`, which starts the message server process, touch none of
the fields below and are left out. -/
def init (store : QMailStore) (retrievalAction storageAction : Nat) : State :=
  let ids := store.enabledAccounts
  let accountKey := QMailMessageKey.parentAccountId ids
  { m_retrievalAction := retrievalAction
    m_storageAction := storageAction
    key := accountKey
    sortKey := QMailMessageSortKey.timeStamp SortOrder.DescendingOrder
    m_key := accountKey
    m_search := []
    m_currentFolderId := ⟨0⟩
    m_selectedMsgIds := []
    foldersAddedConnections := 0 }

/-! ## Rows and indexes -/

/-- Number of rows of the model: `rowCount()`. -/
def rowCount (rows : List QMailMessageId) : Int := rows.length

/-- The model index of a row, `index(row)`: valid exactly for `0 <= row < rowCount()`. -/
def index (rows : List QMailMessageId) (row : Int) : Option Nat :=
  if 0 ≤ row ∧ row < rowCount rows then some row.toNat else none

/-- The id shown at an index, `idFromIndex`; an invalid index gives the invalid id. -/
def idFromIndex (rows : List QMailMessageId) : Option Nat → QMailMessageId
  | some r => rows.getD r ⟨0⟩
  | none => ⟨0⟩

/-! ## Strings -/

/-- Replace every occurrence of the character `before` by the string `after`:
`QString::replace(QChar, const QString &)`. -/
def replace (before : Char) (after : QString) : QString → QString
  | [] => []
  | c :: cs => (if c = before then after else [c]) ++ replace before after cs

/-- Cut the string at `position`, `QString::truncate`: a negative position counts as zero,
one beyond the end changes nothing. -/
def truncate (position : Int) (s : QString) : QString := s.take position.toNat

/-- The decimal digit of a number below ten. -/
def digitChar (d : Nat) : Char := Char.ofNat (48 + d)

/-- The decimal digits of `n`, most significant first; `fuel` bounds the number of digits. -/
def numberDigits : Nat → Nat → QString
  | 0, _ => []
  | fuel + 1, n =>
    if n < 10 then [digitChar n] else numberDigits fuel (n / 10) ++ [digitChar (n % 10)]

/-- The decimal text of an unsigned number, `QString::number(qulonglong)`. -/
def number (n : Nat) : QString := numberDigits (n + 1) n

/-- The value of a decimal digit character. -/
def digitValue (c : Char) : Option Nat :=
  if 48 ≤ c.toNat ∧ c.toNat ≤ 57 then some (c.toNat - 48) else none

/-- Read a string of decimal digits, continuing from the value `acc`. -/
def parseDigits : Option Nat → QString → Option Nat
  | acc, [] => acc
  | none, _ :: _ => none
  | some a, c :: cs =>
    match digitValue c with
    | some d => parseDigits (some (a * 10 + d)) cs
    | none => none

/-- Whether a character is white space, `QChar::isSpace`: tab to carriage return, space,
next line, no-break space and the Unicode space, line and paragraph separators. -/
def isSpace (c : Char) : Bool :=
  (9 ≤ c.toNat && c.toNat ≤ 13) || c.toNat == 32 || c.toNat == 133 || c.toNat == 160 ||
  c.toNat == 5760 || (8192 ≤ c.toNat && c.toNat ≤ 8202) || c.toNat == 8232 ||
  c.toNat == 8233 || c.toNat == 8239 || c.toNat == 8287 || c.toNat == 12288

/-- The string without its leading and trailing white space. -/
def trimmed (s : QString) : QString :=
  ((s.dropWhile isSpace).reverse.dropWhile isSpace).reverse

/-- The string without one leading plus sign. -/
def dropPlus : QString → QString
  | [] => []
  | c :: cs => if c = '+' then cs else c :: cs

/-- The conversion `QString::toULongLong()` in base 10 and the C locale: white space around
the number is skipped and one leading "+" is accepted; the result is the number read, and 0
when the conversion fails (no digits, a character that is no digit, or a value that does not
fit in 64 bits). -/
def toULongLong (s : QString) : Nat :=
  match dropPlus (trimmed s) with
  | [] => 0
  | c :: cs =>
    match parseDigits (some 0) (c :: cs) with
    | some v => if v < 2 ^ 64 then v else 0
    | none => 0

/-- Lower-case form used for the case-insensitive comparison. -/
def toLower (s : QString) : QString := s.map Char.toLower

/-- Whether `QString::compare(a, b, Qt::CaseInsensitive) == 0`. -/
def compareCaseInsensitiveEq (a b : QString) : Bool := toLower a == toLower b

/-- The body of the plain-text container, `bodyPlainText`; an empty string without one. -/
def bodyPlainText (mailMsg : QMailMessage) : QString :=
  match mailMsg.plainText with
  | some body => body
  | none => []

/-- The quoted body computed by `data` for `MessageQuotedBodyRole` from the plain-text body:
prepend a newline, replace each newline by newline and ">", cut the last character. -/
def quotedBody (body : QString) : QString :=
  let body1 := '\n' :: body
  let body2 := replace '\n' ['\n', '>'] body1
  truncate ((body2.length : Int) - 1) body2

/-- The operator `!` of C++ on a status word: 1 for zero, 0 otherwise. -/
def logicalNot (x : Nat) : Nat := if x = 0 then 1 else 0

/-! ## data -/

/-- The role values of a row: `EmailMessageListModel::data`. -/
def data (store : QMailStore) (rows : List QMailMessageId) (s : State)
    (idx : Option Nat) (role : Role) : QVariant :=
  match idx with
  | none => QVariant.invalid
  | some r =>
    if (r : Int) > rowCount rows then QVariant.invalid
    else
      let msgId := idFromIndex rows idx
      match role with
      | Role.MessageAttachmentCountRole =>
        if (logicalNot (store.message msgId).status) &&& store.HasAttachments ≠ 0 then
          QVariant.int 0
        else
          QVariant.int (store.message msgId).attachments.length
      | Role.MessageAttachmentsRole =>
        if (logicalNot (store.message msgId).status) &&& store.HasAttachments ≠ 0 then
          QVariant.stringList []
        else
          QVariant.stringList (store.message msgId).attachments
      | Role.MessageReadStatusRole =>
        if (store.message msgId).status &&& store.Read ≠ 0 then QVariant.int 1
        else QVariant.int 0
      | Role.MessageBodyTextRole => QVariant.string (bodyPlainText (store.message msgId))
      | Role.MessageQuotedBodyRole =>
        QVariant.string (quotedBody (bodyPlainText (store.message msgId)))
      | Role.MessageUuidRole => QVariant.string (number msgId.toULongLong)
      | Role.MessageSelectModeRole =>
        if s.m_selectedMsgIds.contains msgId then QVariant.int 1 else QVariant.int 0
      | Role.MessageIdRole => QVariant.messageId msgId

/-! ## Search and scoping -/

/-- The slot `setSearch`: an empty string shows nothing; a non-empty string other than the
stored one narrows the stored scope `m_key` to the messages whose subject, recipients or
sender include it; the stored string itself is answered by an early return. -/
def setSearch (search : QString) (s : State) : State :=
  if search.isEmpty then
    { s with key := QMailMessageKey.nonMatchingKey, m_search := search }
  else if s.m_search = search then
    s
  else
    let subjectKey := QMailMessageKey.subject search
    let toKey := QMailMessageKey.recipients search
    let fromKey := QMailMessageKey.sender search
    { s with
      key := QMailMessageKey.and s.m_key
        (QMailMessageKey.or (QMailMessageKey.or subjectKey toKey) fromKey)
      m_search := search }

/-- The slot `setFolderKey`: store the folder id and, when it is valid, show that folder's
messages newest first. -/
def setFolderKey (id : QVariant) (s : State) : State :=
  let s1 := { s with m_currentFolderId := id.toFolderId }
  if !s1.m_currentFolderId.isValid then
    s1
  else
    let folderKey := QMailMessageKey.parentFolderId s1.m_currentFolderId
    { s1 with
      key := folderKey
      m_key := folderKey
      sortKey := QMailMessageSortKey.timeStamp SortOrder.DescendingOrder }

/-- The inner loop of `setAccountKey` and the loop of `foldersAdded`: the first folder of the
list whose display name is "INBOX" ignoring case, as a list of at most one id. -/
def firstInbox (store : QMailStore) : List QMailFolderId → List QMailFolderId
  | [] => []
  | folderId :: rest =>
    if compareCaseInsensitiveEq (store.displayName folderId) "INBOX".toList then [folderId]
    else firstInbox store rest

/-- The outer loop of `setAccountKey`: one pass per entry of `ids`, each pass querying the
folders of `accountId`, the id that was passed to the slot. -/
def inboxFolders (store : QMailStore) (accountId : QMailAccountId)
    (ids : List QMailAccountId) : List QMailFolderId :=
  (List.range ids.length).foldl
    (fun folderIdList _ => folderIdList ++ firstInbox store (store.queryFolders accountId)) []

/-- The slot `setAccountKey`. -/
def setAccountKey (store : QMailStore) (id : QVariant) (s : State) : State :=
  let accountId := id.toAccountId
  let ids :=
    if !accountId.isValid || id == QVariant.int (-1) then store.enabledAccounts
    else [accountId]
  let folderIdList := inboxFolders store accountId ids
  let accountKey := QMailMessageKey.parentAccountId ids
  let s1 := { s with key := accountKey }
  let s2 :=
    if folderIdList.length != 0 then
      { s1 with key := QMailMessageKey.parentFolderIdIn folderIdList }
    else
      { s1 with foldersAddedConnections := s1.foldersAddedConnections + 1 }
  let s3 := { s2 with sortKey := QMailMessageSortKey.timeStamp SortOrder.DescendingOrder }
  { s3 with m_key := s3.key }

/-- The slot `foldersAdded`. -/
def foldersAdded (store : QMailStore) (folderIds : List QMailFolderId) (s : State) : State :=
  let folderIdList := firstInbox store folderIds
  if folderIdList.length != 0 then
    let folderKey := QMailMessageKey.parentFolderIdIn folderIdList
    { s with key := folderKey, foldersAddedConnections := 0, m_key := folderKey }
  else
    s

/-- The sort order chosen by the `sortBy` slots: 0 is descending, anything else ascending. -/
def sortOrderOf (key : Int) : SortOrder :=
  if key = 0 then SortOrder.DescendingOrder else SortOrder.AscendingOrder

/-- The slot `sortBySender`. -/
def sortBySender (key : Int) (s : State) : State :=
  { s with sortKey := QMailMessageSortKey.sender (sortOrderOf key) }

/-- The slot `sortBySubject`. -/
def sortBySubject (key : Int) (s : State) : State :=
  { s with sortKey := QMailMessageSortKey.subject (sortOrderOf key) }

/-- The slot `sortByDate`. -/
def sortByDate (key : Int) (s : State) : State :=
  { s with sortKey := QMailMessageSortKey.timeStamp (sortOrderOf key) }

/-! ## Looking a message up -/

/-- The loop of `indexFromMessageId` from row `row` on, with `remaining = rowCount() - row`
rows still to visit: the first row whose `MessageIdRole` is `msgId`, and -1 after the last. -/
def indexFromMessageIdLoop (store : QMailStore) (rows : List QMailMessageId) (s : State)
    (msgId : QMailMessageId) : Nat → Nat → QVariant
  | 0, _ => QVariant.int (-1)
  | remaining + 1, row =>
    let vMsgId := data store rows s (index rows row) Role.MessageIdRole
    if msgId = vMsgId.toMessageId then QVariant.int row
    else indexFromMessageIdLoop store rows s msgId remaining (row + 1)

/-- The method `indexFromMessageId`. -/
def indexFromMessageId (store : QMailStore) (rows : List QMailMessageId) (s : State)
    (uuid : QString) : QVariant :=
  let id := toULongLong uuid
  let msgId : QMailMessageId := ⟨id⟩
  indexFromMessageIdLoop store rows s msgId rows.length 0

/-! ## Selection -/

/-- The inner loop of `deSelectAllMessages` from row `row` on, with `remaining` rows to
visit: a `dataChanged` for every row that shows `msgId`. -/
def dataChangedRows (store : QMailStore) (rows : List QMailMessageId) (s : State)
    (msgId : QMailMessageId) : Nat → Nat → List Effect
  | 0, _ => []
  | remaining + 1, row =>
    let vMsgId := data store rows s (index rows row) Role.MessageIdRole
    (if msgId = vMsgId.toMessageId then
      [Effect.dataChanged (index rows row) (index rows row)]
    else [])
      ++ dataChangedRows store rows s msgId remaining (row + 1)

/-- The slot `deSelectAllMessages`. -/
def deSelectAllMessages (store : QMailStore) (rows : List QMailMessageId) (s : State) :
    State × List Effect :=
  if s.m_selectedMsgIds.length = 0 then
    (s, [])
  else
    let msgIds := s.m_selectedMsgIds
    let s1 := { s with m_selectedMsgIds := [] }
    (s1, msgIds.foldl
      (fun out msgId => out ++ dataChangedRows store rows s1 msgId rows.length 0) [])

/-- The slot `selectMessage`. -/
def selectMessage (rows : List QMailMessageId) (idx : Int) (s : State) :
    State × List Effect :=
  let msgId := idFromIndex rows (index rows idx)
  if !s.m_selectedMsgIds.contains msgId then
    ({ s with m_selectedMsgIds := s.m_selectedMsgIds ++ [msgId] },
      [Effect.dataChanged (index rows idx) (index rows idx)])
  else
    (s, [])

/-- The slot `deSelectMessage`; `removeOne` is `List.erase`, which drops the first
occurrence. -/
def deSelectMessage (rows : List QMailMessageId) (idx : Int) (s : State) :
    State × List Effect :=
  let msgId := idFromIndex rows (index rows idx)
  ({ s with m_selectedMsgIds := s.m_selectedMsgIds.erase msgId },
    [Effect.dataChanged (index rows idx) (index rows idx)])

/-- The slot `moveSelectedMessageIds`. -/
def moveSelectedMessageIds (store : QMailStore) (vFolderId : QVariant) (s : State) :
    State × List Effect :=
  match s.m_selectedMsgIds with
  | [] => (s, [])
  | first :: _ =>
    let id := vFolderId.toFolderId
    let msg := store.message first
    ({ s with m_selectedMsgIds := [] },
      [Effect.onlineMoveMessages s.m_storageAction s.m_selectedMsgIds id,
        Effect.exportUpdates s.m_retrievalAction msg.parentAccountId])

/-- The slot `deleteSelectedMessageIds`. -/
def deleteSelectedMessageIds (store : QMailStore) (s : State) : State × List Effect :=
  match s.m_selectedMsgIds with
  | [] => (s, [])
  | first :: _ =>
    let msg := store.message first
    ({ s with m_selectedMsgIds := [] },
      [Effect.deleteMessages s.m_storageAction s.m_selectedMsgIds,
        Effect.exportUpdates s.m_retrievalAction msg.parentAccountId])

/-- The slot `downloadActivityChanged`; `sender` is the address of the sending action, none
for a null sender. The state is not an output: the slot assigns no field. -/
def downloadActivityChanged (sender : Option Nat) (activity : Activity) (s : State) :
    State × List Effect :=
  match sender with
  | none => (s, [])
  | some action =>
    if activity = Activity.Successful then
      if action = s.m_retrievalAction then (s, [Effect.messageDownloadCompleted])
      else (s, [])
    else if activity = Activity.Failed then
      (s, [Effect.messageDownloadCompleted])
    else (s, [])

/-! ## Call sequences on the selection -/

/-- One call of a selection slot. Each call comes with the store and the rows the model shows
when it is made. -/
inductive Call where
  | selectMessage (idx : Int)
  | deSelectMessage (idx : Int)
  | deSelectAllMessages
  | moveSelectedMessageIds (vFolderId : QVariant)
  | deleteSelectedMessageIds

/-- The state after one call. -/
def Call.apply (store : QMailStore) (rows : List QMailMessageId) (s : State) : Call → State
  | Call.selectMessage idx => (EmailMessageListModel.selectMessage rows idx s).1
  | Call.deSelectMessage idx => (EmailMessageListModel.deSelectMessage rows idx s).1
  | Call.deSelectAllMessages => (EmailMessageListModel.deSelectAllMessages store rows s).1
  | Call.moveSelectedMessageIds v => (EmailMessageListModel.moveSelectedMessageIds store v s).1
  | Call.deleteSelectedMessageIds => (EmailMessageListModel.deleteSelectedMessageIds store s).1

/-- The state after a sequence of calls, first call first. -/
def runCalls (s : State) : List (QMailStore × List QMailMessageId × Call) → State
  | [] => s
  | (store, rows, c) :: rest => runCalls (c.apply store rows s) rest

/-! ## Concrete stores and states -/

/-- A message of account 1 with status word 0, no plain-text part and no attachment. -/
def plainMessage : QMailMessage :=
  { status := 0, parentAccountId := ⟨1⟩, plainText := none, attachments := [] }

/-- A store with one enabled account, 1, whose only folder, 10, is named "INBOX". -/
def sampleStore : QMailStore :=
  { enabledAccounts := [⟨1⟩]
    queryFolders := fun a => if a = ⟨1⟩ then [⟨10⟩] else []
    displayName := fun _ => "INBOX".toList
    message := fun _ => plainMessage
    HasAttachments := 2
    Read := 1 }

/-- Two rows, showing the messages 7 and 9. -/
def sampleRows : List QMailMessageId := [⟨7⟩, ⟨9⟩]

/-- Three rows, the first and the last showing the same message: 7, 9, 7. -/
def repeatedRows : List QMailMessageId := [⟨7⟩, ⟨9⟩, ⟨7⟩]

/-- The adapter as constructed over `sampleStore`, its actions at the addresses 1 and 2. -/
def sampleInit : State := init sampleStore 1 2

/-- Select row 1, deselect row 0, select row 0, over `sampleStore` and `sampleRows`. -/
def sampleCalls : List (QMailStore × List QMailMessageId × Call) :=
  [(sampleStore, sampleRows, Call.selectMessage 1),
    (sampleStore, sampleRows, Call.deSelectMessage 0),
    (sampleStore, sampleRows, Call.selectMessage 0)]

/-- The constructed adapter after setSearch("a") and then setFolderKey(folder 5): the stored
search string is still "a", the active predicate is that of the folder. -/
def searchedThenScoped : State :=
  setFolderKey (QVariant.folderId ⟨5⟩) (setSearch ['a'] sampleInit)

/-- A message whose plain-text body is "abc". -/
def abcMessage : QMailMessage :=
  { status := 0, parentAccountId := ⟨1⟩, plainText := some ['a', 'b', 'c'], attachments := [] }

/-- The store `sampleStore` with every id loading `abcMessage`. -/
def abcStore : QMailStore := { sampleStore with message := fun _ => abcMessage }

/-- A message whose status word is 1, so without the flag of mask 2, and whose loaded form
reports one attachment, "a.pdf". -/
def unflaggedMessage : QMailMessage :=
  { status := 1, parentAccountId := ⟨1⟩, plainText := none, attachments := ["a.pdf".toList] }

/-- The store `sampleStore`, whose HasAttachments mask is 2, with every id loading
`unflaggedMessage`. -/
def unflaggedStore : QMailStore := { sampleStore with message := fun _ => unflaggedMessage }

/-! ## Account scoping as the specification words it -/

/-- The accounts in scope: the single account when its id is valid, and otherwise (invalid id
or -1) the enabled accounts in name order. -/
def scopedAccounts (store : QMailStore) (id : QVariant) : List QMailAccountId :=
  if id.toAccountId.isValid && id != QVariant.int (-1) then [id.toAccountId]
  else store.enabledAccounts

/-- For each account in order, the first folder of that account whose display name equals
"INBOX" ignoring case; an account without one contributes nothing. -/
def inboxOfEach (store : QMailStore) (accounts : List QMailAccountId) : List QMailFolderId :=
  accounts.foldr (fun a rest => firstInbox store (store.queryFolders a) ++ rest) []

/-- The active predicate the specification gives for setAccountKey: 'parent folder in L' when
the INBOX list L is non-empty, 'parent account in A' when it is empty. -/
def accountScopeKeySpec (store : QMailStore) (id : QVariant) : QMailMessageKey :=
  if inboxOfEach store (scopedAccounts store id) ≠ [] then
    QMailMessageKey.parentFolderIdIn (inboxOfEach store (scopedAccounts store id))
  else
    QMailMessageKey.parentAccountId (scopedAccounts store id)

/-! ## The selection -/

theorem selectMessage_selection (rows : List QMailMessageId) (idx : Int) (s : State) :
    (selectMessage rows idx s).1.m_selectedMsgIds =
      if idFromIndex rows (index rows idx) ∈ s.m_selectedMsgIds then s.m_selectedMsgIds
      else s.m_selectedMsgIds ++ [idFromIndex rows (index rows idx)] := by
  unfold selectMessage
  by_cases h : idFromIndex rows (index rows idx) ∈ s.m_selectedMsgIds <;> simp [h]

theorem selectMessage_nodup (rows : List QMailMessageId) (idx : Int) (s : State)
    (h : s.m_selectedMsgIds.Nodup) : (selectMessage rows idx s).1.m_selectedMsgIds.Nodup := by
  rw [selectMessage_selection]
  split
  · exact h
  · rename_i hn
    refine List.Nodup.append h (List.nodup_singleton _) ?_
    intro a ha hb
    rw [List.mem_singleton] at hb
    exact hn (hb ▸ ha)

theorem deSelectMessage_nodup (rows : List QMailMessageId) (idx : Int) (s : State)
    (h : s.m_selectedMsgIds.Nodup) : (deSelectMessage rows idx s).1.m_selectedMsgIds.Nodup := by
  unfold deSelectMessage
  exact h.erase _

theorem deSelectAllMessages_selection (store : QMailStore) (rows : List QMailMessageId)
    (s : State) : (deSelectAllMessages store rows s).1.m_selectedMsgIds = [] := by
  unfold deSelectAllMessages
  split
  · rename_i h
    exact List.length_eq_zero.mp h
  · rfl

theorem moveSelectedMessageIds_selection (store : QMailStore) (v : QVariant) (s : State) :
    (moveSelectedMessageIds store v s).1.m_selectedMsgIds = [] := by
  unfold moveSelectedMessageIds
  split
  · rename_i h
    exact h
  · rfl

theorem deleteSelectedMessageIds_selection (store : QMailStore) (s : State) :
    (deleteSelectedMessageIds store s).1.m_selectedMsgIds = [] := by
  unfold deleteSelectedMessageIds
  split
  · rename_i h
    exact h
  · rfl

theorem apply_nodup (store : QMailStore) (rows : List QMailMessageId) (s : State) (c : Call)
    (h : s.m_selectedMsgIds.Nodup) : (c.apply store rows s).m_selectedMsgIds.Nodup := by
  cases c with
  | selectMessage idx => exact selectMessage_nodup rows idx s h
  | deSelectMessage idx => exact deSelectMessage_nodup rows idx s h
  | deSelectAllMessages =>
    show (deSelectAllMessages store rows s).1.m_selectedMsgIds.Nodup
    rw [deSelectAllMessages_selection]
    exact List.nodup_nil
  | moveSelectedMessageIds v =>
    show (moveSelectedMessageIds store v s).1.m_selectedMsgIds.Nodup
    rw [moveSelectedMessageIds_selection]
    exact List.nodup_nil
  | deleteSelectedMessageIds =>
    show (deleteSelectedMessageIds store s).1.m_selectedMsgIds.Nodup
    rw [deleteSelectedMessageIds_selection]
    exact List.nodup_nil

theorem runCalls_nodup (calls : List (QMailStore × List QMailMessageId × Call)) :
    ∀ s : State, s.m_selectedMsgIds.Nodup → (runCalls s calls).m_selectedMsgIds.Nodup := by
  induction calls with
  | nil => intro s h; exact h
  | cons c rest ih =>
    intro s h
    obtain ⟨store, rows, c⟩ := c
    exact ih _ (apply_nodup store rows s c h)

/-- C1: starting from the constructor's empty selection, after every finite sequence of
selectMessage, deSelectMessage, deSelectAllMessages, moveSelectedMessageIds and
deleteSelectedMessageIds calls (any arguments, any store and rows at each call) the selection
holds no id twice; and selectMessage appends the row's id at the end when it is absent and
leaves the selection unchanged otherwise. -/
theorem selection_never_holds_an_id_twice (store0 : QMailStore) (retrievalAction storageAction : Nat)
    (calls : List (QMailStore × List QMailMessageId × Call)) :
    (init store0 retrievalAction storageAction).m_selectedMsgIds = [] ∧
    (runCalls (init store0 retrievalAction storageAction) calls).m_selectedMsgIds.Nodup ∧
    ∀ (rows : List QMailMessageId) (idx : Int) (s : State),
      (selectMessage rows idx s).1.m_selectedMsgIds =
        if idFromIndex rows (index rows idx) ∈ s.m_selectedMsgIds then s.m_selectedMsgIds
        else s.m_selectedMsgIds ++ [idFromIndex rows (index rows idx)] :=
  ⟨rfl, runCalls_nodup calls _ List.nodup_nil, selectMessage_selection⟩

/-! ## Bulk actions -/

/-- C2: after moveSelectedMessageIds or deleteSelectedMessageIds the selection is empty; with a
non-empty selection the storage action receives one request (move to the given folder,
respectively delete) with exactly the selected ids in selection order, followed by one
exportUpdates request, sent to the retrieval action, for the parent account of the first
selected message, and nothing but the selection changes; with an empty selection no request
is issued and the state is unchanged. -/
theorem bulk_actions_clear_and_forward (store : QMailStore) (vFolderId : QVariant) (s : State) :
    (moveSelectedMessageIds store vFolderId s).1 = { s with m_selectedMsgIds := [] } ∧
    (deleteSelectedMessageIds store s).1 = { s with m_selectedMsgIds := [] } ∧
    (moveSelectedMessageIds store vFolderId s).2 =
      (match s.m_selectedMsgIds with
        | [] => []
        | first :: _ =>
          [Effect.onlineMoveMessages s.m_storageAction s.m_selectedMsgIds vFolderId.toFolderId,
            Effect.exportUpdates s.m_retrievalAction (store.message first).parentAccountId]) ∧
    (deleteSelectedMessageIds store s).2 =
      (match s.m_selectedMsgIds with
        | [] => []
        | first :: _ =>
          [Effect.deleteMessages s.m_storageAction s.m_selectedMsgIds,
            Effect.exportUpdates s.m_retrievalAction (store.message first).parentAccountId]) ∧
    (moveSelectedMessageIds store vFolderId { s with m_selectedMsgIds := [] }).1 =
      { s with m_selectedMsgIds := [] } ∧
    (deleteSelectedMessageIds store { s with m_selectedMsgIds := [] }).1 =
      { s with m_selectedMsgIds := [] } := by
  obtain ⟨ra, sa, k, sk, mk, ms, cf, sel, fc⟩ := s
  cases sel <;> simp [moveSelectedMessageIds, deleteSelectedMessageIds]

/-! ## Download notifications -/

/-- C5: for a non-null sender, downloadActivityChanged(Failed) emits messageDownloadCompleted
exactly once whichever action sent it; downloadActivityChanged(Successful) emits it exactly
once when the sender is the retrieval action and not at all otherwise; the other activity
values emit nothing; and no call (null sender included) changes the state. -/
theorem failed_retrieval_signals_completion (action : Nat) (sender : Option Nat)
    (activity : Activity) (s : State) :
    (downloadActivityChanged (some action) Activity.Failed s).2
      = [Effect.messageDownloadCompleted] ∧
    (downloadActivityChanged (some action) Activity.Successful s).2
      = (if action = s.m_retrievalAction then [Effect.messageDownloadCompleted] else []) ∧
    (downloadActivityChanged (some action) Activity.Pending s).2 = [] ∧
    (downloadActivityChanged (some action) Activity.InProgress s).2 = [] ∧
    (downloadActivityChanged sender activity s).1 = s := by
  refine ⟨rfl, ?_, rfl, rfl, ?_⟩
  · simp only [downloadActivityChanged, if_true]
    split <;> rfl
  · unfold downloadActivityChanged
    cases sender with
    | none => rfl
    | some a =>
      cases activity
      all_goals simp
      split <;> rfl

/-! ## The selected role -/

theorem index_of_valid (rows : List QMailMessageId) (idx : Int) (h0 : 0 ≤ idx)
    (h1 : idx < rowCount rows) : index rows idx = some idx.toNat := by
  unfold index
  rw [if_pos ⟨h0, h1⟩]

theorem data_selectMode (store : QMailStore) (rows : List QMailMessageId) (s : State)
    (idx : Int) (h0 : 0 ≤ idx) (h1 : idx < rowCount rows) :
    data store rows s (index rows idx) Role.MessageSelectModeRole =
      if idFromIndex rows (index rows idx) ∈ s.m_selectedMsgIds then QVariant.int 1
      else QVariant.int 0 := by
  rw [index_of_valid rows idx h0 h1]
  have h2 : ¬ ((idx.toNat : Int) > rowCount rows) := by
    rw [Int.toNat_of_nonneg h0]
    omega
  simp only [data, h2, if_false]
  by_cases hm : idFromIndex rows (some idx.toNat) ∈ s.m_selectedMsgIds <;> simp [hm]

/-- C6: for every selection reached from the constructor by select, deselect and bulk calls and
every valid row idx, the MessageSelectModeRole of the row is 1 exactly when the row's message
id is in the selection (and 0 otherwise); it is 1 right after selectMessage(idx) and 0 right
after deSelectMessage(idx). -/
theorem selected_role_reports_selection (store0 : QMailStore) (retrievalAction storageAction : Nat)
    (calls : List (QMailStore × List QMailMessageId × Call))
    (store : QMailStore) (rows : List QMailMessageId) (idx : Int)
    (h0 : 0 ≤ idx) (h1 : idx < rowCount rows) :
    data store rows (runCalls (init store0 retrievalAction storageAction) calls)
        (index rows idx) Role.MessageSelectModeRole
      = (if idFromIndex rows (index rows idx) ∈
            (runCalls (init store0 retrievalAction storageAction) calls).m_selectedMsgIds
          then QVariant.int 1 else QVariant.int 0) ∧
    data store rows
        (selectMessage rows idx (runCalls (init store0 retrievalAction storageAction) calls)).1
        (index rows idx) Role.MessageSelectModeRole = QVariant.int 1 ∧
    data store rows
        (deSelectMessage rows idx (runCalls (init store0 retrievalAction storageAction) calls)).1
        (index rows idx) Role.MessageSelectModeRole = QVariant.int 0 := by
  have hnd := runCalls_nodup calls (init store0 retrievalAction storageAction) List.nodup_nil
  generalize runCalls (init store0 retrievalAction storageAction) calls = s at hnd ⊢
  refine ⟨data_selectMode store rows s idx h0 h1, ?_, ?_⟩
  · rw [data_selectMode store rows _ idx h0 h1, selectMessage_selection]
    split <;> simp_all
  · rw [data_selectMode store rows _ idx h0 h1]
    have : idFromIndex rows (index rows idx) ∉
        (deSelectMessage rows idx s).1.m_selectedMsgIds := by
      unfold deSelectMessage
      exact fun hm => (List.Nodup.mem_erase_iff hnd).mp hm |>.1 rfl
    rw [if_neg this]

/-- Witness of C6: row 1 of `sampleRows` after the calls `sampleCalls` on the constructed
adapter. -/
theorem selected_role_reports_selection_witness :
    ((0 : Int) ≤ 1 ∧ (1 : Int) < rowCount sampleRows) ∧
    (data sampleStore sampleRows (runCalls (init sampleStore 1 2) sampleCalls)
        (index sampleRows 1) Role.MessageSelectModeRole
      = (if idFromIndex sampleRows (index sampleRows 1) ∈
            (runCalls (init sampleStore 1 2) sampleCalls).m_selectedMsgIds
          then QVariant.int 1 else QVariant.int 0) ∧
    data sampleStore sampleRows
        (selectMessage sampleRows 1 (runCalls (init sampleStore 1 2) sampleCalls)).1
        (index sampleRows 1) Role.MessageSelectModeRole = QVariant.int 1 ∧
    data sampleStore sampleRows
        (deSelectMessage sampleRows 1 (runCalls (init sampleStore 1 2) sampleCalls)).1
        (index sampleRows 1) Role.MessageSelectModeRole = QVariant.int 0) :=
  ⟨by decide,
    selected_role_reports_selection sampleStore 1 2 sampleCalls sampleStore sampleRows 1
      (by decide) (by decide)⟩

/-! ## Search -/

/-- C3, as stated, fails: on the adapter that was searched for "a" and then scoped to folder 5,
setSearch("a") returns early, and the active predicate stays the folder predicate instead of
becoming m_key AND (subject OR recipients OR sender includes "a"). -/
theorem setSearch_same_string_keeps_predicate :
    (['a'] : QString) ≠ [] ∧
    (setSearch ['a'] searchedThenScoped).key = QMailMessageKey.parentFolderId ⟨5⟩ ∧
    ¬ ((setSearch ['a'] searchedThenScoped).key =
        QMailMessageKey.and searchedThenScoped.m_key
          (QMailMessageKey.or
            (QMailMessageKey.or (QMailMessageKey.subject ['a']) (QMailMessageKey.recipients ['a']))
            (QMailMessageKey.sender ['a'])) ∧
      (setSearch ['a'] searchedThenScoped).m_search = ['a']) := by
  decide

/-- C3, amended: for every state and every non-empty search string s, after setSearch(s) the
stored search string equals s; when s differs from the string stored before, the active
predicate is the stored scope predicate (m_key) AND (subject includes s OR recipients include
s OR sender includes s) and m_key is unchanged; when s equals the string stored before, the
call changes nothing. -/
theorem setSearch_derives_predicate (s : State) (search : QString) (h : search ≠ []) :
    (setSearch search s).m_search = search ∧
    (s.m_search ≠ search →
      (setSearch search s).key =
        QMailMessageKey.and s.m_key
          (QMailMessageKey.or
            (QMailMessageKey.or (QMailMessageKey.subject search) (QMailMessageKey.recipients search))
            (QMailMessageKey.sender search)) ∧
      (setSearch search s).m_key = s.m_key) ∧
    (s.m_search = search → setSearch search s = s) := by
  have he : search.isEmpty = false := by
    cases search with
    | nil => exact absurd rfl h
    | cons c cs => rfl
  unfold setSearch
  simp only [he, Bool.false_eq_true, if_false]
  by_cases hs : s.m_search = search
  · simp [hs]
  · simp [hs]

/-- Witness of the amended C3: setSearch("a") on the constructed adapter. -/
theorem setSearch_derives_predicate_witness :
    (['a'] : QString) ≠ [] ∧
    ((setSearch ['a'] sampleInit).m_search = ['a'] ∧
    (sampleInit.m_search ≠ ['a'] →
      (setSearch ['a'] sampleInit).key =
        QMailMessageKey.and sampleInit.m_key
          (QMailMessageKey.or
            (QMailMessageKey.or (QMailMessageKey.subject ['a']) (QMailMessageKey.recipients ['a']))
            (QMailMessageKey.sender ['a'])) ∧
      (setSearch ['a'] sampleInit).m_key = sampleInit.m_key) ∧
    (sampleInit.m_search = ['a'] → setSearch ['a'] sampleInit = sampleInit)) :=
  ⟨by decide, setSearch_derives_predicate sampleInit ['a'] (by decide)⟩

/-! ## Folder scope -/

/-- C4, as stated, fails: setFolderKey with the invalid folder id stores the id and returns;
the active predicate of the constructed adapter stays 'parent account in [1]' and does not
become 'parent folder is the invalid id'. -/
theorem setFolderKey_invalid_keeps_predicate :
    (setFolderKey (QVariant.folderId ⟨0⟩) sampleInit).m_currentFolderId = ⟨0⟩ ∧
    (setFolderKey (QVariant.folderId ⟨0⟩) sampleInit).key
      = QMailMessageKey.parentAccountId [⟨1⟩] ∧
    (setFolderKey (QVariant.folderId ⟨0⟩) sampleInit).key
      ≠ QMailMessageKey.parentFolderId ⟨0⟩ := by
  decide

/-- C4, amended: for every folder id passed to setFolderKey, afterwards the current folder id is
that id; when the id is valid, the active predicate is 'parent folder is that id', the stored
scope predicate (m_key) equals the active predicate and the sort key is timestamp descending;
when the id is invalid, nothing but the current folder id changes. -/
theorem setFolderKey_rebuilds_predicate (f : QMailFolderId) (s : State) :
    (setFolderKey (QVariant.folderId f) s).m_currentFolderId = f ∧
    (f.isValid = true →
      (setFolderKey (QVariant.folderId f) s).key = QMailMessageKey.parentFolderId f ∧
      (setFolderKey (QVariant.folderId f) s).m_key = (setFolderKey (QVariant.folderId f) s).key ∧
      (setFolderKey (QVariant.folderId f) s).sortKey
        = QMailMessageSortKey.timeStamp SortOrder.DescendingOrder) ∧
    (f.isValid = false →
      setFolderKey (QVariant.folderId f) s = { s with m_currentFolderId := f }) := by
  unfold setFolderKey
  simp only [QVariant.toFolderId]
  cases hv : f.isValid <;> simp

/-- Witness of the amended C4: setFolderKey(folder 5) on the constructed adapter after
sortBySender(1). -/
theorem setFolderKey_rebuilds_predicate_witness :
    (⟨5⟩ : QMailFolderId).isValid = true ∧
    (setFolderKey (QVariant.folderId ⟨5⟩) (sortBySender 1 sampleInit)).key
      = QMailMessageKey.parentFolderId ⟨5⟩ ∧
    (setFolderKey (QVariant.folderId ⟨5⟩) (sortBySender 1 sampleInit)).m_key
      = (setFolderKey (QVariant.folderId ⟨5⟩) (sortBySender 1 sampleInit)).key ∧
    (setFolderKey (QVariant.folderId ⟨5⟩) (sortBySender 1 sampleInit)).sortKey
      = QMailMessageSortKey.timeStamp SortOrder.DescendingOrder :=
  ⟨by decide,
    (setFolderKey_rebuilds_predicate ⟨5⟩ (sortBySender 1 sampleInit)).2.1 (by decide)⟩

/-! ## Quoted body -/

theorem replace_append (before : Char) (after a b : QString) :
    replace before after (a ++ b) = replace before after a ++ replace before after b := by
  induction a with
  | nil => rfl
  | cons c cs ih => simp [replace, ih]

theorem truncate_init (a : QString) (c : Char) :
    truncate (((a ++ [c]).length : Int) - 1) (a ++ [c]) = a := by
  unfold truncate
  have : (((a ++ [c]).length : Int) - 1).toNat = a.length := by
    simp
  rw [this]
  simp

/-- A body that ends with a newline is quoted whole: the character cut is the ">" that the
replacement put after the final newline. -/
theorem quotedBody_newline_end (b : QString) :
    quotedBody (b ++ ['\n']) = '\n' :: '>' :: (replace '\n' ['\n', '>'] b ++ ['\n']) := by
  unfold quotedBody
  have h : replace '\n' ['\n', '>'] ('\n' :: (b ++ ['\n']))
      = ('\n' :: '>' :: (replace '\n' ['\n', '>'] b ++ ['\n'])) ++ ['>'] := by
    simp [replace, replace_append]
  simp only [h]
  exact truncate_init _ _

/-- A body that ends with another character loses it: the character cut is the last
character of the body. -/
theorem quotedBody_other_end (b : QString) (c : Char) (hc : c ≠ '\n') :
    quotedBody (b ++ [c]) = '\n' :: '>' :: replace '\n' ['\n', '>'] b := by
  unfold quotedBody
  have h : replace '\n' ['\n', '>'] ('\n' :: (b ++ [c]))
      = ('\n' :: '>' :: replace '\n' ['\n', '>'] b) ++ [c] := by
    simp [replace, replace_append, hc]
  simp only [h]
  exact truncate_init _ _

/-- C7, evaluated on the body "abc": the quoted-body role returns newline, ">", "ab"; the
character cut by the final truncate is the "c" of the body, not a ">" put there by the
replacement, so a character of the body is missing from the result. -/
theorem quotedBody_cuts_last_character :
    data abcStore sampleRows sampleInit (index sampleRows 0) Role.MessageBodyTextRole
      = QVariant.string ['a', 'b', 'c'] ∧
    data abcStore sampleRows sampleInit (index sampleRows 0) Role.MessageQuotedBodyRole
      = QVariant.string ['\n', '>', 'a', 'b'] ∧
    replace '\n' ['\n', '>'] ('\n' :: ['a', 'b', 'c']) = ['\n', '>', 'a', 'b', 'c'] ∧
    'c' ∉ quotedBody ['a', 'b', 'c'] := by
  decide

/-! ## Attachments -/

/-- With a HasAttachments mask whose lowest bit is clear, the guard of the attachment roles,
`!status & HasAttachments`, is zero for every status word. -/
theorem attachment_guard_zero (status mask : Nat) (h : mask % 2 = 0) :
    logicalNot status &&& mask = 0 := by
  unfold logicalNot
  split
  · rw [Nat.one_and_eq_mod_two, h]
  · exact Nat.zero_and _

/-- C9, evaluated on a message with status word 1, HasAttachments mask 2 and one attachment
location: the status word does not contain the flag, and yet the attachment-count role
returns 1 and the attachment-list role returns the one display name. -/
theorem unflagged_message_reports_attachments :
    unflaggedMessage.status &&& unflaggedStore.HasAttachments = 0 ∧
    data unflaggedStore sampleRows sampleInit (index sampleRows 0)
      Role.MessageAttachmentCountRole = QVariant.int 1 ∧
    data unflaggedStore sampleRows sampleInit (index sampleRows 0)
      Role.MessageAttachmentsRole = QVariant.stringList ["a.pdf".toList] := by
  decide

/-! ## Account scope -/

theorem inboxFolders_single (store : QMailStore) (accountId : QMailAccountId) :
    inboxFolders store accountId [accountId]
      = firstInbox store (store.queryFolders accountId) := by
  simp [inboxFolders, List.range_succ]

/-- For a valid account id the slot computes the predicate of the specification. -/
theorem setAccountKey_valid (store : QMailStore) (a : QMailAccountId) (s : State)
    (h : a.isValid = true) :
    (setAccountKey store (QVariant.accountId a) s).key
      = accountScopeKeySpec store (QVariant.accountId a) ∧
    (setAccountKey store (QVariant.accountId a) s).m_key
      = (setAccountKey store (QVariant.accountId a) s).key ∧
    (setAccountKey store (QVariant.accountId a) s).sortKey
      = QMailMessageSortKey.timeStamp SortOrder.DescendingOrder := by
  refine ⟨?_, rfl, rfl⟩
  simp only [setAccountKey, accountScopeKeySpec, scopedAccounts, inboxOfEach,
    QVariant.toAccountId, h]
  simp only [List.foldr, List.append_nil]
  cases hl : firstInbox store (store.queryFolders a) <;> simp [inboxFolders_single, hl]

/-- C8, evaluated on a store whose one enabled account, 1, has the folder 10 named "INBOX",
for setAccountKey(-1): the slot queries the folders of the invalid account id on every pass,
finds none, and leaves 'parent account in [1]' as the active predicate, where the
specification gives 'parent folder in [10]'. -/
theorem setAccountKey_all_accounts_misses_inbox :
    (setAccountKey sampleStore (QVariant.int (-1)) sampleInit).key
      = QMailMessageKey.parentAccountId [⟨1⟩] ∧
    accountScopeKeySpec sampleStore (QVariant.int (-1))
      = QMailMessageKey.parentFolderIdIn [⟨10⟩] ∧
    (setAccountKey sampleStore (QVariant.accountId ⟨1⟩) sampleInit).key
      = QMailMessageKey.parentFolderIdIn [⟨10⟩] := by
  decide

/-! ## Decimal text of an id -/

theorem digitValue_digitChar (d : Nat) (h : d < 10) : digitValue (digitChar d) = some d := by
  interval_cases d <;> rfl

theorem parseDigits_none (s : QString) : parseDigits none s = none := by
  cases s <;> rfl

theorem parseDigits_append (a b : QString) :
    ∀ acc : Option Nat, parseDigits acc (a ++ b) = parseDigits (parseDigits acc a) b := by
  induction a with
  | nil => intro acc; cases acc <;> simp [parseDigits]
  | cons c cs ih =>
    intro acc
    cases acc with
    | none => simp [parseDigits, parseDigits_none]
    | some v =>
      simp only [List.cons_append, parseDigits]
      cases digitValue c with
      | none => simp [parseDigits_none]
      | some d => exact ih _

theorem numberDigits_ne_nil (fuel n : Nat) (h : n < fuel) : numberDigits fuel n ≠ [] := by
  cases fuel with
  | zero => omega
  | succ f =>
    unfold numberDigits
    split <;> simp

theorem parseDigits_numberDigits (fuel : Nat) :
    ∀ n : Nat, n < fuel → parseDigits (some 0) (numberDigits fuel n) = some n := by
  induction fuel with
  | zero => intro n h; omega
  | succ f ih =>
    intro n h
    unfold numberDigits
    split
    · rename_i h10
      simp [parseDigits, digitValue_digitChar n h10]
    · rename_i h10
      have hlt : n / 10 < f := by omega
      rw [parseDigits_append, ih (n / 10) hlt]
      have hd : n % 10 < 10 := Nat.mod_lt _ (by decide)
      simp only [parseDigits, digitValue_digitChar (n % 10) hd]
      congr 1
      omega

theorem isSpace_digitChar (d : Nat) (h : d < 10) : isSpace (digitChar d) = false := by
  interval_cases d <;> rfl

theorem digitChar_ne_plus (d : Nat) (h : d < 10) : digitChar d ≠ '+' := by
  interval_cases d <;> decide

theorem numberDigits_digits (fuel : Nat) :
    ∀ n : Nat, ∀ c ∈ numberDigits fuel n, ∃ d : Nat, d < 10 ∧ c = digitChar d := by
  induction fuel with
  | zero => intro n c hc; simp [numberDigits] at hc
  | succ f ih =>
    intro n c hc
    unfold numberDigits at hc
    split at hc
    · rename_i h10
      rw [List.mem_singleton] at hc
      exact ⟨n, h10, hc⟩
    · rcases List.mem_append.mp hc with h1 | h2
      · exact ih _ c h1
      · rw [List.mem_singleton] at h2
        exact ⟨n % 10, Nat.mod_lt _ (by decide), h2⟩

theorem dropWhile_of_all_false (p : Char → Bool) (l : QString)
    (h : ∀ c ∈ l, p c = false) : l.dropWhile p = l := by
  cases l with
  | nil => rfl
  | cons c cs => simp [List.dropWhile, h c (List.mem_cons_self c cs)]

theorem trimmed_of_no_space (s : QString) (h : ∀ c ∈ s, isSpace c = false) :
    trimmed s = s := by
  unfold trimmed
  rw [dropWhile_of_all_false isSpace s h,
    dropWhile_of_all_false isSpace s.reverse (fun c hc => h c (List.mem_reverse.mp hc)),
    List.reverse_reverse]

theorem dropPlus_of_no_plus (s : QString) (h : ∀ c ∈ s, c ≠ '+') : dropPlus s = s := by
  cases s with
  | nil => rfl
  | cons c cs => simp [dropPlus, h c (List.mem_cons_self c cs)]

/-- Reading the decimal text of a 64-bit number gives the number back. -/
theorem toULongLong_number (n : Nat) (h : n < 2 ^ 64) : toULongLong (number n) = n := by
  unfold toULongLong number
  have hne := numberDigits_ne_nil (n + 1) n (Nat.lt_succ_self n)
  have hp := parseDigits_numberDigits (n + 1) n (Nat.lt_succ_self n)
  have hdig := numberDigits_digits (n + 1) n
  have htrim : trimmed (numberDigits (n + 1) n) = numberDigits (n + 1) n :=
    trimmed_of_no_space _ (fun c hc => by
      obtain ⟨d, hd, rfl⟩ := hdig c hc
      exact isSpace_digitChar d hd)
  have hplus : dropPlus (numberDigits (n + 1) n) = numberDigits (n + 1) n :=
    dropPlus_of_no_plus _ (fun c hc => by
      obtain ⟨d, hd, rfl⟩ := hdig c hc
      exact digitChar_ne_plus d hd)
  rw [htrim, hplus]
  cases hs : numberDigits (n + 1) n with
  | nil => exact absurd hs hne
  | cons c cs =>
    rw [hs] at hp
    simp only [hp, h, if_true]

/-! ## indexFromMessageId -/

theorem data_messageId (store : QMailStore) (rows : List QMailMessageId) (s : State)
    (row : Nat) (h : row < rows.length) :
    (data store rows s (index rows row) Role.MessageIdRole).toMessageId
      = rows.getD row ⟨0⟩ := by
  have hi : index rows (row : Int) = some row := by
    unfold index rowCount
    rw [if_pos ⟨by omega, by omega⟩]
    simp
  have h2 : ¬ ((row : Int) > rowCount rows) := by
    unfold rowCount
    omega
  rw [hi]
  simp only [data, h2, if_false]
  rfl

theorem indexFromMessageIdLoop_spec (store : QMailStore) (rows : List QMailMessageId)
    (s : State) (msgId : QMailMessageId) (remaining : Nat) :
    ∀ row : Nat, row + remaining = rows.length →
      (∃ k : Nat, row ≤ k ∧ k < rows.length ∧ rows[k]? = some msgId ∧
          (∀ j : Nat, row ≤ j → j < k → rows[j]? ≠ some msgId) ∧
          indexFromMessageIdLoop store rows s msgId remaining row = QVariant.int k) ∨
      ((∀ j : Nat, row ≤ j → j < rows.length → rows[j]? ≠ some msgId) ∧
          indexFromMessageIdLoop store rows s msgId remaining row = QVariant.int (-1)) := by
  induction remaining with
  | zero =>
    intro row hrow
    right
    exact ⟨fun j h1 h2 => by omega, rfl⟩
  | succ n ih =>
    intro row hrow
    have hlt : row < rows.length := by omega
    have hget : rows[row]? = some (rows.getD row ⟨0⟩) := by
      simp [List.getD, List.getElem?_eq_getElem hlt]
    unfold indexFromMessageIdLoop
    simp only [data_messageId store rows s row hlt]
    by_cases hm : msgId = rows.getD row ⟨0⟩
    · left
      refine ⟨row, le_refl _, hlt, ?_, fun j h1 h2 => by omega, ?_⟩
      · rw [hget, hm]
      · rw [if_pos hm]
    · rw [if_neg hm]
      have hrow_ne : rows[row]? ≠ some msgId := by
        rw [hget]
        intro he
        exact hm (Option.some.inj he).symm
      rcases ih (row + 1) (by omega) with ⟨k, hk1, hk2, hk3, hk4, hk5⟩ | ⟨hall, hres⟩
      · left
        refine ⟨k, by omega, hk2, hk3, ?_, hk5⟩
        intro j h1 h2
        by_cases hj : j = row
        · rw [hj]; exact hrow_ne
        · exact hk4 j (by omega) h2
      · right
        refine ⟨?_, hres⟩
        intro j h1 h2
        by_cases hj : j = row
        · rw [hj]; exact hrow_ne
        · exact hall j (by omega) h2

theorem data_uuid (store : QMailStore) (rows : List QMailMessageId) (s : State)
    (row : Nat) (h : row < rows.length) :
    data store rows s (index rows row) Role.MessageUuidRole
      = QVariant.string (number (rows.getD row ⟨0⟩).toULongLong) := by
  have hi : index rows (row : Int) = some row := by
    unfold index rowCount
    rw [if_pos ⟨by omega, by omega⟩]
    simp
  have h2 : ¬ ((row : Int) > rowCount rows) := by
    unfold rowCount
    omega
  rw [hi]
  simp only [data, h2, if_false]
  rfl

/-- C10: for every model and every string, indexFromMessageId returns the smallest row whose
message id equals the unsigned 64-bit number toULongLong reads from the string, and -1 when
no row has that id; and in a model whose rows carry pairwise distinct message ids (each a
64-bit number), for every row r below rowCount, the MessageUuidRole of row r is the decimal
text of the row's id and indexFromMessageId applied to that text returns r. -/
theorem indexFromMessageId_inverts_uuid (store : QMailStore) (rows : List QMailMessageId)
    (s : State) :
    (∀ uuid : QString,
      (∃ k : Nat, k < rows.length ∧ rows[k]? = some ⟨toULongLong uuid⟩ ∧
          (∀ j : Nat, j < k → rows[j]? ≠ some ⟨toULongLong uuid⟩) ∧
          indexFromMessageId store rows s uuid = QVariant.int k) ∨
      ((∀ j : Nat, j < rows.length → rows[j]? ≠ some ⟨toULongLong uuid⟩) ∧
          indexFromMessageId store rows s uuid = QVariant.int (-1))) ∧
    (∀ r : Nat, rows.Nodup → (∀ m ∈ rows, m.toULongLong < 2 ^ 64) → r < rows.length →
      data store rows s (index rows r) Role.MessageUuidRole
        = QVariant.string (number (rows.getD r ⟨0⟩).toULongLong) ∧
      indexFromMessageId store rows s (number (rows.getD r ⟨0⟩).toULongLong)
        = QVariant.int r) := by
  have hgen : ∀ uuid : QString,
      (∃ k : Nat, k < rows.length ∧ rows[k]? = some ⟨toULongLong uuid⟩ ∧
          (∀ j : Nat, j < k → rows[j]? ≠ some ⟨toULongLong uuid⟩) ∧
          indexFromMessageId store rows s uuid = QVariant.int k) ∨
      ((∀ j : Nat, j < rows.length → rows[j]? ≠ some ⟨toULongLong uuid⟩) ∧
          indexFromMessageId store rows s uuid = QVariant.int (-1)) := by
    intro uuid
    unfold indexFromMessageId
    rcases indexFromMessageIdLoop_spec store rows s ⟨toULongLong uuid⟩ rows.length 0
        (by omega) with ⟨k, _, hk2, hk3, hk4, hk5⟩ | ⟨hall, hres⟩
    · left
      exact ⟨k, hk2, hk3, fun j hj => hk4 j (Nat.zero_le _) hj, hk5⟩
    · right
      exact ⟨fun j hj => hall j (Nat.zero_le _) hj, hres⟩
  refine ⟨hgen, ?_⟩
  intro r hdistinct hbits hr
  refine ⟨data_uuid store rows s r hr, ?_⟩
  have hget : rows[r]? = some (rows.getD r ⟨0⟩) := by
    simp [List.getD, List.getElem?_eq_getElem hr]
  have hmem : rows.getD r ⟨0⟩ ∈ rows := List.mem_iff_getElem?.mpr ⟨r, hget⟩
  have hround : (⟨toULongLong (number (rows.getD r ⟨0⟩).toULongLong)⟩ : QMailMessageId)
      = rows.getD r ⟨0⟩ := by
    rw [toULongLong_number _ (hbits _ hmem)]
  rcases hgen (number (rows.getD r ⟨0⟩).toULongLong) with ⟨k, hk2, hk3, _, hk5⟩ | ⟨hall, _⟩
  · rw [hround] at hk3
    have hkr : k = r := by
      have h1 : rows[k] = rows[r] := by
        have e1 := List.getElem?_eq_getElem hk2
        have e2 := List.getElem?_eq_getElem hr
        rw [e1] at hk3
        rw [e2] at hget
        exact (Option.some.inj hk3).trans (Option.some.inj hget).symm
      exact (List.Nodup.getElem_inj_iff hdistinct).mp h1
    rw [hk5, hkr]
  · rw [hround] at hall
    exact absurd hget (hall r hr)

/-- Witness of C10: row 1 of `sampleRows`, whose ids 7 and 9 are distinct; and on the rows
7, 9, 7 the strings "7", " 9", "+9 " and "8" give the rows 0, 1, 1 and -1. -/
theorem indexFromMessageId_inverts_uuid_witness :
    (sampleRows.Nodup ∧ (∀ m ∈ sampleRows, m.toULongLong < 2 ^ 64) ∧ 1 < sampleRows.length) ∧
    (data sampleStore sampleRows sampleInit (index sampleRows (1 : Nat)) Role.MessageUuidRole
        = QVariant.string (number (sampleRows.getD 1 ⟨0⟩).toULongLong) ∧
      indexFromMessageId sampleStore sampleRows sampleInit
        (number (sampleRows.getD 1 ⟨0⟩).toULongLong) = QVariant.int (1 : Nat)) ∧
    indexFromMessageId sampleStore repeatedRows sampleInit ['7'] = QVariant.int 0 ∧
    indexFromMessageId sampleStore repeatedRows sampleInit [' ', '9'] = QVariant.int 1 ∧
    indexFromMessageId sampleStore repeatedRows sampleInit ['+', '9', ' '] = QVariant.int 1 ∧
    indexFromMessageId sampleStore repeatedRows sampleInit ['8'] = QVariant.int (-1) :=
  ⟨⟨by decide, by decide, by decide⟩,
    (indexFromMessageId_inverts_uuid sampleStore sampleRows sampleInit).2 1
      (by decide) (by decide) (by decide),
    by decide, by decide, by decide, by decide⟩

end EmailMessageListModel
